import Mathlib

/-!
Shallow embedding of the route-handler logic of the nodeJS-demo repository
(`src/routes/users.js`, `src/routes/products.js`, `src/routes/tasks.js`).

Each Express handler is translated to a pure Lean function from the current
in-memory collection (and the parsed request) to a response together with the
collection after the request.  Conventions of the embedding:

* A path parameter run through JavaScript `parseInt` is modelled as
  `Option Int`: `none` stands for `NaN` (no leading integer in the text).
  `u.id === id` with `id = NaN` is always false, which `(idOpt == some u.id)`
  with `idOpt = none` reproduces.
* A JSON body field that may be absent is `Option String` (`none` =
  `undefined`); JavaScript truthiness of such a field is `truthy` below
  (absent and empty string are falsy).  The `dueDate` field, where the code
  distinguishes `undefined` from `null`, is the three-valued `JStr`.
  Bodies are restricted to well-typed JSON (string fields carry strings,
  numeric fields numbers), so `typeof x !== "number"` guards are
  automatically satisfied on the `some` side.
* JavaScript numbers (price, stock) are modelled as `Rat`; `Number.isInteger`
  becomes `den = 1`.  Query parameters already run through `parseFloat` are
  `JNum` (`nan` for non-numeric input).
* Timestamps (`new Date().toISOString()`) are an opaque `now : String`
  argument supplied to each mutating handler.
* Responses are `Except Err data`; `Err` carries the `statusCode` and
  `message` the handler attaches to the error it passes to `next`.
-/

deriving instance DecidableEq for Except

namespace NodeDemo

/-- An error forwarded to the Express error middleware: its `statusCode`
and `message`. -/
structure Err where
  statusCode : Nat
  message : String
deriving DecidableEq, Repr

/-- JavaScript truthiness of an optional string field: `undefined` and the
empty string are falsy. -/
def truthy : Option String → Bool
  | none => false
  | some s => !(s == "")

/-- A JSON value for the `dueDate` field, where the code distinguishes
`undefined`, `null` and a string. -/
inductive JStr where
  | undef
  | null
  | str (s : String)
deriving DecidableEq, Repr

/-- JavaScript truthiness of a `JStr`: `undefined`, `null` and `""` are
falsy. -/
def JStr.truthyJ : JStr → Bool
  | .str s => !(s == "")
  | _ => false

/-- The result of `parseFloat` on a query parameter: a number or `NaN`. -/
inductive JNum where
  | num (q : Rat)
  | nan
deriving DecidableEq, Repr

/-- `x >= v` in JavaScript, where `v` may be `NaN` (any comparison with
`NaN` is false). -/
def JNum.geJ (x : Rat) : JNum → Bool
  | .num m => m ≤ x
  | .nan => false

/-- `x <= v` in JavaScript, where `v` may be `NaN`. -/
def JNum.leJ (x : Rat) : JNum → Bool
  | .num m => x ≤ m
  | .nan => false

/-- `String.prototype.trim`, on the character list. -/
def trimChars (l : List Char) : List Char :=
  ((l.dropWhile Char.isWhitespace).reverse.dropWhile Char.isWhitespace).reverse

/-- `String.prototype.trim`. -/
def jsTrim (s : String) : String :=
  ⟨trimChars s.data⟩

/-- `String.prototype.toLowerCase`. -/
def jsToLower (s : String) : String :=
  ⟨s.data.map Char.toLower⟩

/-- A character matched by the regex class `[^\s@]`. -/
def isOkChar (c : Char) : Bool :=
  !c.isWhitespace && !(c == '@')

/-- Whether the list contains a `'.'` that is not its last element. -/
def dotNotLast : List Char → Bool
  | [] => false
  | [_] => false
  | c :: rest => c == '.' || dotNotLast rest

/-- Whether the list contains a `'.'` that is neither first nor last:
the backtracking condition for `[^\s@]+\.[^\s@]+` once all characters are
known to be in `[^\s@]` (that class contains `'.'`). -/
def hasInnerDot : List Char → Bool
  | [] => false
  | _ :: rest => dotNotLast rest

/-- The domain part of the email regex, `[^\s@]+\.[^\s@]+`. -/
def domainOk (l : List Char) : Bool :=
  !l.isEmpty && l.all isOkChar && hasInnerDot l

/-- Scan for the single `'@'` of `/^[^\s@]+@[^\s@]+\.[^\s@]+$/`; `acc` is
the local part read so far (it contains no `'@'` by construction). -/
def emailTestAux : List Char → List Char → Bool
  | _, [] => false
  | acc, '@' :: rest => !acc.isEmpty && acc.all isOkChar && domainOk rest
  | acc, c :: rest => emailTestAux (acc ++ [c]) rest

/-- `emailRegex.test`, for `/^[^\s@]+@[^\s@]+\.[^\s@]+$/`: since both
character classes exclude `'@'`, a match splits the string at its unique
`'@'` into a non-empty local part and a domain with an inner dot. -/
def emailRegexTest (s : String) : Bool :=
  emailTestAux [] s.data

/-- `dateRegex.test`, for `/^\d{4}-\d{2}-\d{2}$/`. -/
def dateRegexTest (s : String) : Bool :=
  match s.data with
  | [y1, y2, y3, y4, h1, m1, m2, h2, d1, d2] =>
      y1.isDigit && y2.isDigit && y3.isDigit && y4.isDigit && h1 == '-' &&
      m1.isDigit && m2.isDigit && h2 == '-' && d1.isDigit && d2.isDigit
  | _ => false

/-- `Math.max(...ids)` over a non-empty spread (`0` on the unreachable empty
case, which every caller guards with `length > 0`). -/
def listMax : List Int → Int
  | [] => 0
  | [x] => x
  | x :: y :: xs => max x (listMax (y :: xs))

/-- `collection.length > 0 ? Math.max(...collection.map(e => e.id)) + 1 : 1`,
the id-assignment rule shared by all three create handlers. -/
def nextId (ids : List Int) : Int :=
  if ids.isEmpty then 1 else listMax ids + 1

/-- `collection[index] = x` after `index = findIndex(p)`: replace the first
element satisfying `p`. -/
def replaceFirst (p : α → Bool) (x : α) : List α → List α
  | [] => []
  | y :: ys => if p y then x :: ys else y :: replaceFirst p x ys

/-- Render an id that may be `NaN` into an error-message template. -/
def showIdOpt : Option Int → String
  | none => "NaN"
  | some i => toString i

/-! ## Users (`src/routes/users.js`) -/

/-- One element of the in-memory `users` array. -/
structure User where
  id : Int
  name : String
  email : String
  createdAt : String
deriving DecidableEq, Repr

/-- The body of a user create/update request (fields absent = `undefined`). -/
structure UserBody where
  name : Option String
  email : Option String
deriving DecidableEq, Repr

/-- `GET /api/users/:id` — no `isNaN` guard, straight to `find`. -/
def usersGetById (users : List User) (idOpt : Option Int) : Except Err User :=
  match users.find? (fun u => idOpt == some u.id) with
  | none => .error ⟨404, "User with ID " ++ showIdOpt idOpt ++ " not found"⟩
  | some u => .ok u

/-- `POST /api/users`: required-field check, email format check, duplicate
email check, then push `{ id: nextId, name, email, createdAt: now }`. -/
def usersCreate (users : List User) (b : UserBody) (now : String) :
    Except Err User × List User :=
  if !truthy b.name || !truthy b.email then
    (.error ⟨400, "Name and email are required"⟩, users)
  else
    let email := b.email.getD ""
    if !emailRegexTest email then
      (.error ⟨400, "Invalid email format"⟩, users)
    else
      match users.find? (fun u => u.email == email) with
      | some _ => (.error ⟨409, "User with this email already exists"⟩, users)
      | none =>
          let newUser : User :=
            ⟨nextId (users.map (·.id)), b.name.getD "", email, now⟩
          (.ok newUser, users ++ [newUser])

/-- `PUT /api/users/:id`: lookup, at-least-one-field check, email format and
duplicate checks when an email is supplied, then conditional assignment of
each truthy field. -/
def usersUpdate (users : List User) (idOpt : Option Int) (b : UserBody) :
    Except Err User × List User :=
  match users.find? (fun u => idOpt == some u.id) with
  | none =>
      (.error ⟨404, "User with ID " ++ showIdOpt idOpt ++ " not found"⟩, users)
  | some u =>
      if !truthy b.name && !truthy b.email then
        (.error ⟨400, "At least one field (name or email) is required for update"⟩,
          users)
      else
        let email := b.email.getD ""
        if truthy b.email && !emailRegexTest email then
          (.error ⟨400, "Invalid email format"⟩, users)
        else if truthy b.email &&
            (users.find? (fun v => v.email == email && !(idOpt == some v.id))).isSome then
          (.error ⟨409, "User with this email already exists"⟩, users)
        else
          let u' : User :=
            { u with
              name := if truthy b.name then b.name.getD "" else u.name
              email := if truthy b.email then email else u.email }
          (.ok u', replaceFirst (fun v => idOpt == some v.id) u' users)

/-- `DELETE /api/users/:id`: lookup, then `splice` out the first match. -/
def usersDelete (users : List User) (idOpt : Option Int) :
    Except Err User × List User :=
  match users.find? (fun u => idOpt == some u.id) with
  | none =>
      (.error ⟨404, "User with ID " ++ showIdOpt idOpt ++ " not found"⟩, users)
  | some u =>
      (.ok u, users.eraseP (fun v => idOpt == some v.id))

/-- The seeded demo `users` array (timestamps made concrete). -/
def demoUsers : List User :=
  [⟨1, "John Doe", "john@example.com", "T1"⟩,
   ⟨2, "Jane Smith", "jane@example.com", "T2"⟩]

/-! ## Products (`src/routes/products.js`) -/

/-- One element of the in-memory `products` array. -/
structure Product where
  id : Int
  name : String
  description : String
  price : Rat
  category : String
  stock : Rat
  createdAt : String
deriving DecidableEq, Repr

/-- The body of a product create/update request.  String fields use
truthiness (`undefined`/`""` falsy); `price` and `stock` are compared with
`undefined` explicitly in the code, so `none` = `undefined` and any present
value counts, `0` included. -/
structure ProductBody where
  name : Option String
  description : Option String
  price : Option Rat
  category : Option String
  stock : Option Rat
deriving DecidableEq, Repr

/-- The query string of `GET /api/products`; `minPrice`/`maxPrice` hold the
`parseFloat` of the parameter when the raw parameter was truthy. -/
structure ProductQuery where
  category : Option String
  minPrice : Option JNum
  maxPrice : Option JNum
deriving DecidableEq, Repr

/-- `GET /api/products`: copy, then category / minPrice / maxPrice filters in
that order, each applied only when its parameter is truthy. -/
def productsList (products : List Product) (q : ProductQuery) : List Product :=
  let f0 := products
  let f1 := match q.category with
    | some c => if !(c == "") then
        f0.filter (fun p => jsToLower p.category == jsToLower c) else f0
    | none => f0
  let f2 := match q.minPrice with
    | some v => f1.filter (fun p => JNum.geJ p.price v)
    | none => f1
  match q.maxPrice with
  | some v => f2.filter (fun p => JNum.leJ p.price v)
  | none => f2

/-- `GET /api/products/:id` — no `isNaN` guard, straight to `find`. -/
def productsGetById (products : List Product) (idOpt : Option Int) :
    Except Err Product :=
  match products.find? (fun p => idOpt == some p.id) with
  | none => .error ⟨404, "Product with ID " ++ showIdOpt idOpt ++ " not found"⟩
  | some p => .ok p

/-- `POST /api/products`: required fields (`price`/`stock` compared with
`undefined`, the others by truthiness), sign check on price, sign and
integrality check on stock, then push with `id = nextId`. -/
def productsCreate (products : List Product) (b : ProductBody) (now : String) :
    Except Err Product × List Product :=
  if !truthy b.name || !truthy b.description || b.price == none ||
      !truthy b.category || b.stock == none then
    (.error ⟨400, "Name, description, price, category, and stock are required"⟩,
      products)
  else
    let price := b.price.getD 0
    let stock := b.stock.getD 0
    if price < 0 then
      (.error ⟨400, "Price must be a positive number"⟩, products)
    else if stock < 0 || !(stock.den == 1) then
      (.error ⟨400, "Stock must be a non-negative integer"⟩, products)
    else
      let newProduct : Product :=
        ⟨nextId (products.map (·.id)), b.name.getD "", b.description.getD "",
          price, b.category.getD "", stock, now⟩
      (.ok newProduct, products ++ [newProduct])

/-- `PUT /api/products/:id`: lookup, at-least-one-field check, per-field
validation of `price`/`stock` when present, then conditional assignment —
string fields only when truthy, `price`/`stock` whenever not `undefined`. -/
def productsUpdate (products : List Product) (idOpt : Option Int)
    (b : ProductBody) : Except Err Product × List Product :=
  match products.find? (fun p => idOpt == some p.id) with
  | none =>
      (.error ⟨404, "Product with ID " ++ showIdOpt idOpt ++ " not found"⟩,
        products)
  | some p =>
      if !truthy b.name && !truthy b.description && b.price == none &&
          !truthy b.category && b.stock == none then
        (.error ⟨400, "At least one field is required for update"⟩, products)
      else if (match b.price with | some pr => decide (pr < 0) | none => false) then
        (.error ⟨400, "Price must be a positive number"⟩, products)
      else if (match b.stock with
          | some st => decide (st < 0) || !(st.den == 1)
          | none => false) then
        (.error ⟨400, "Stock must be a non-negative integer"⟩, products)
      else
        let p' : Product :=
          { p with
            name := if truthy b.name then b.name.getD "" else p.name
            description :=
              if truthy b.description then b.description.getD "" else p.description
            price := match b.price with | some pr => pr | none => p.price
            category := if truthy b.category then b.category.getD "" else p.category
            stock := match b.stock with | some st => st | none => p.stock }
        (.ok p', replaceFirst (fun v => idOpt == some v.id) p' products)

/-- `DELETE /api/products/:id`: lookup, then `splice` out the first match. -/
def productsDelete (products : List Product) (idOpt : Option Int) :
    Except Err Product × List Product :=
  match products.find? (fun p => idOpt == some p.id) with
  | none =>
      (.error ⟨404, "Product with ID " ++ showIdOpt idOpt ++ " not found"⟩,
        products)
  | some p =>
      (.ok p, products.eraseP (fun v => idOpt == some v.id))

/-- A small concrete `products` state used as witness input. -/
def demoProducts : List Product :=
  [⟨1, "Laptop", "High-performance laptop", 150, "Electronics", 15, "P1"⟩,
   ⟨2, "Coffee Maker", "Programmable coffee maker", 80, "Appliances", 30, "P2"⟩,
   ⟨3, "Running Shoes", "Comfortable running shoes", 120, "Sports", 25, "P3"⟩]

/-! ## Tasks (`src/routes/tasks.js`) -/

/-- One element of the in-memory `tasks` array (`dueDate = none` is the
stored `null`). -/
structure Task where
  id : Int
  title : String
  description : String
  status : String
  priority : String
  dueDate : Option String
  createdAt : String
  updatedAt : String
deriving DecidableEq, Repr

/-- The body of a task create/update request. -/
structure TaskBody where
  title : Option String
  description : Option String
  status : Option String
  priority : Option String
  dueDate : JStr
deriving DecidableEq, Repr

/-- The query string of `GET /api/tasks`. -/
structure TaskQuery where
  status : Option String
  priority : Option String
  sortBy : Option String
  order : Option String
deriving DecidableEq, Repr

def validStatuses : List String := ["pending", "in-progress", "completed"]

def validPriorities : List String := ["low", "medium", "high"]

def validSortFields : List String := ["title", "priority", "dueDate", "createdAt"]

/-- `priorityOrder = { low: 1, medium: 2, high: 3 }` (`0` stands for the
`undefined` lookup on a value outside the enum, which the comparator never
meets on well-formed stores). -/
def priorityOrder (p : String) : Int :=
  if p == "low" then 1 else if p == "medium" then 2
  else if p == "high" then 3 else 0

/-- Numeric value of a decimal digit character. -/
def digitVal (c : Char) : Nat := c.toNat - 48

/-- Gregorian leap-year test (extrapolated Gregorian calendar, as ECMAScript
`Date` uses). -/
def isLeap (y : Nat) : Bool := (y % 4 == 0 && y % 100 != 0) || y % 400 == 0

/-- The month lengths of a year. -/
def monthDays (leap : Bool) : List Nat :=
  [31, if leap then 29 else 28, 31, 30, 31, 30, 31, 31, 30, 31, 30, 31]

/-- Length of month `m` (1-based) of year `y`; `0` for an out-of-range
month. -/
def daysInMonth (y m : Nat) : Nat := (monthDays (isLeap y)).getD (m - 1) 0

/-- Number of leap years `z` with `z < y` (year 0 is a leap year). -/
def leapsBefore (y : Nat) : Nat :=
  if y == 0 then 0 else (y - 1) / 4 - (y - 1) / 100 + (y - 1) / 400 + 1

/-- Day number of the calendar date `y-m-d` counting from `0000-01-01`. -/
def daysFromYear0 (y m d : Nat) : Nat :=
  365 * y + leapsBefore y + ((monthDays (isLeap y)).take (m - 1)).sum + (d - 1)

def msPerDay : Int := 86400000

/-- Whether `y-m-d` is a real calendar date: the browsers' ISO `Date` parser
rejects dates like `2024-02-30` (yielding `NaN`) even though they pass the
route handlers' format regex. -/
def civilValid (y m d : Nat) : Bool :=
  decide (1 ≤ m) && decide (m ≤ 12) && decide (1 ≤ d) && decide (d ≤ daysInMonth y m)

/-- `new Date(s).getTime()` (UTC epoch milliseconds), with `none` for `NaN`,
for the two string layouts this system ever stores: the `YYYY-MM-DD` strings
the dueDate validator admits and the `YYYY-MM-DDTHH:mm:ss.sssZ` timestamps
`toISOString` produces.  Pre-1970 dates give negative values; a string of
either layout whose components are not a real calendar date (or a time past
`24:00:00.000`) gives `NaN`; any other string is outside the reachable
stores and is also mapped to `NaN`. -/
def jsDateMs (s : String) : Option Int :=
  match s.data with
  | [y1, y2, y3, y4, h1, m1, m2, h2, d1, d2] =>
      if (y1.isDigit && y2.isDigit && y3.isDigit && y4.isDigit && h1 == '-' &&
          m1.isDigit && m2.isDigit && h2 == '-' && d1.isDigit && d2.isDigit) = true then
        let y := digitVal y1 * 1000 + digitVal y2 * 100 + digitVal y3 * 10 + digitVal y4
        let m := digitVal m1 * 10 + digitVal m2
        let d := digitVal d1 * 10 + digitVal d2
        if civilValid y m d then
          some (((daysFromYear0 y m d : Int) - (daysFromYear0 1970 1 1 : Int)) * msPerDay)
        else none
      else none
  | [y1, y2, y3, y4, h1, m1, m2, h2, d1, d2, tc, hh1, hh2, c1, mi1, mi2, c2,
     ss1, ss2, dc, x1, x2, x3, zc] =>
      if (y1.isDigit && y2.isDigit && y3.isDigit && y4.isDigit && h1 == '-' &&
          m1.isDigit && m2.isDigit && h2 == '-' && d1.isDigit && d2.isDigit &&
          tc == 'T' && hh1.isDigit && hh2.isDigit && c1 == ':' &&
          mi1.isDigit && mi2.isDigit && c2 == ':' && ss1.isDigit && ss2.isDigit &&
          dc == '.' && x1.isDigit && x2.isDigit && x3.isDigit && zc == 'Z') = true then
        let y := digitVal y1 * 1000 + digitVal y2 * 100 + digitVal y3 * 10 + digitVal y4
        let m := digitVal m1 * 10 + digitVal m2
        let d := digitVal d1 * 10 + digitVal d2
        let hh := digitVal hh1 * 10 + digitVal hh2
        let mi := digitVal mi1 * 10 + digitVal mi2
        let ss := digitVal ss1 * 10 + digitVal ss2
        let x := digitVal x1 * 100 + digitVal x2 * 10 + digitVal x3
        if civilValid y m d &&
            (decide (hh ≤ 23) || (hh == 24 && mi == 0 && ss == 0 && x == 0)) &&
            decide (mi ≤ 59) && decide (ss ≤ 59) then
          some (((daysFromYear0 y m d : Int) - (daysFromYear0 1970 1 1 : Int)) * msPerDay +
            ((hh : Int) * 3600000 + (mi : Int) * 60000 + (ss : Int) * 1000 + (x : Int)))
        else none
      else none
  | _ => none

/-- The sort key of a stored `dueDate`: `new Date(null)` is the epoch,
value `0`; a stored string goes through `new Date`. -/
def dueDateMs : Option String → Option Int
  | none => some 0
  | some s => jsDateMs s

/-- `new Date(a) - new Date(b)` as consumed by `Array.prototype.sort`: when
either operand is `NaN` the subtraction is `NaN`, and `SortCompare` coerces
a `NaN` comparator result to `+0`, i.e. the pair is treated as equal. -/
def dateDiff : Option Int → Option Int → Int
  | some x, some y => x - y
  | _, _ => 0

/-- The JavaScript comparator passed to `sort` for a validated `sortField`
and `sortOrder` (`1` for ascending, `-1` for descending).  The final branch
(plain `<`/`>` on the field) is only reachable for `title`, the one
allow-listed field that is neither `priority` nor a date. -/
def sortComparator (field : String) (ord : Int) (a b : Task) : Int :=
  if field == "priority" then
    (priorityOrder a.priority - priorityOrder b.priority) * ord
  else if field == "dueDate" then
    dateDiff (dueDateMs a.dueDate) (dueDateMs b.dueDate) * ord
  else if field == "createdAt" then
    dateDiff (jsDateMs a.createdAt) (jsDateMs b.createdAt) * ord
  else
    (if a.title < b.title then -1 else if b.title < a.title then 1 else 0) * ord

/-- `GET /api/tasks`: copy, status filter, priority filter (each only when
the parameter is truthy and its value is in the enum), then a stable sort by
the comparator when `sortBy` is truthy and allow-listed.  JavaScript
`Array.prototype.sort` is stable and, for a consistent comparator `c`,
produces the unique stable order sorted by `c`; `List.insertionSort` under
the relation `le a b := c a b ≤ 0` (a stable sort) produces the same
list. -/
def tasksList (tasks : List Task) (q : TaskQuery) : List Task :=
  let f0 := tasks
  let f1 := match q.status with
    | some s => if !(s == "") && validStatuses.contains (jsToLower s) then
        f0.filter (fun t => jsToLower t.status == jsToLower s) else f0
    | none => f0
  let f2 := match q.priority with
    | some s => if !(s == "") && validPriorities.contains (jsToLower s) then
        f1.filter (fun t => jsToLower t.priority == jsToLower s) else f1
    | none => f1
  match q.sortBy with
  | some field =>
      if !(field == "") && validSortFields.contains field then
        let ord : Int := if q.order == some "desc" then -1 else 1
        f2.insertionSort (fun a b => sortComparator field ord a b ≤ 0)
      else f2
  | none => f2

/-- `GET /api/tasks/:id`: `isNaN` guard, then `find`. -/
def tasksGetById (tasks : List Task) (idOpt : Option Int) : Except Err Task :=
  match idOpt with
  | none => .error ⟨400, "Invalid task ID"⟩
  | some id =>
      match tasks.find? (fun t => t.id == id) with
      | none => .error ⟨404, "Task with ID " ++ toString id ++ " not found"⟩
      | some t => .ok t

/-- `POST /api/tasks`: title required and non-blank, enum checks on truthy
status/priority, format check on truthy dueDate, then push with defaults. -/
def tasksCreate (tasks : List Task) (b : TaskBody) (now : String) :
    Except Err Task × List Task :=
  if !truthy b.title || jsTrim (b.title.getD "") == "" then
    (.error ⟨400, "Title is required"⟩, tasks)
  else if truthy b.status && !validStatuses.contains (jsToLower (b.status.getD "")) then
    (.error ⟨400, "Invalid status. Must be one of: " ++
      String.intercalate ", " validStatuses⟩, tasks)
  else if truthy b.priority && !validPriorities.contains (jsToLower (b.priority.getD "")) then
    (.error ⟨400, "Invalid priority. Must be one of: " ++
      String.intercalate ", " validPriorities⟩, tasks)
  else if (match b.dueDate with
      | .str s => !(s == "") && !dateRegexTest s
      | _ => false) then
    (.error ⟨400, "Invalid date format. Use YYYY-MM-DD"⟩, tasks)
  else
    let newTask : Task :=
      { id := nextId (tasks.map (·.id))
        title := jsTrim (b.title.getD "")
        description := if truthy b.description then jsTrim (b.description.getD "") else ""
        status := if truthy b.status then jsToLower (b.status.getD "") else "pending"
        priority := if truthy b.priority then jsToLower (b.priority.getD "") else "medium"
        dueDate := match b.dueDate with
          | .str s => if s == "" then none else some s
          | _ => none
        createdAt := now
        updatedAt := now }
    (.ok newTask, tasks ++ [newTask])

/-- `PUT /api/tasks/:id`: `isNaN` guard, lookup, required title / status /
priority, dueDate format when truthy, then spread-update of the found task
(id and createdAt come from the spread, updatedAt is set to now). -/
def tasksPut (tasks : List Task) (idOpt : Option Int) (b : TaskBody)
    (now : String) : Except Err Task × List Task :=
  match idOpt with
  | none => (.error ⟨400, "Invalid task ID"⟩, tasks)
  | some id =>
      match tasks.find? (fun t => t.id == id) with
      | none => (.error ⟨404, "Task with ID " ++ toString id ++ " not found"⟩, tasks)
      | some t =>
          if !truthy b.title || jsTrim (b.title.getD "") == "" then
            (.error ⟨400, "Title is required for update"⟩, tasks)
          else if !truthy b.status ||
              !validStatuses.contains (jsToLower (b.status.getD "")) then
            (.error ⟨400, "Status is required and must be one of: " ++
              String.intercalate ", " validStatuses⟩, tasks)
          else if !truthy b.priority ||
              !validPriorities.contains (jsToLower (b.priority.getD "")) then
            (.error ⟨400, "Priority is required and must be one of: " ++
              String.intercalate ", " validPriorities⟩, tasks)
          else if (match b.dueDate with
              | .str s => !(s == "") && !dateRegexTest s
              | _ => false) then
            (.error ⟨400, "Invalid date format. Use YYYY-MM-DD"⟩, tasks)
          else
            let t' : Task :=
              { t with
                title := jsTrim (b.title.getD "")
                description :=
                  if truthy b.description then jsTrim (b.description.getD "") else ""
                status := jsToLower (b.status.getD "")
                priority := jsToLower (b.priority.getD "")
                dueDate := match b.dueDate with
                  | .str s => if s == "" then none else some s
                  | _ => none
                updatedAt := now }
            (.ok t', replaceFirst (fun v => v.id == id) t' tasks)

/-! The PATCH handler validates and mutates field by field, with early
returns: a failing validation aborts the handler but keeps every assignment
already made to the stored task.  Each field is a step
`Task → Except (Err × Task) Task`; an error carries the task as mutated so
far, which stays in the store. -/

/-- PATCH step for `title` (`if (title !== undefined)`). -/
def patchTitle (b : TaskBody) (t : Task) : Except (Err × Task) Task :=
  match b.title with
  | none => .ok t
  | some s =>
      if jsTrim s == "" then .error (⟨400, "Title cannot be empty"⟩, t)
      else .ok { t with title := jsTrim s }

/-- PATCH step for `description` (`if (description !== undefined)`). -/
def patchDescription (b : TaskBody) (t : Task) : Except (Err × Task) Task :=
  match b.description with
  | none => .ok t
  | some s => .ok { t with description := jsTrim s }

/-- PATCH step for `status` (`if (status)` — truthy). -/
def patchStatus (b : TaskBody) (t : Task) : Except (Err × Task) Task :=
  if truthy b.status then
    if validStatuses.contains (jsToLower (b.status.getD "")) then
      .ok { t with status := jsToLower (b.status.getD "") }
    else
      .error (⟨400, "Invalid status. Must be one of: " ++
        String.intercalate ", " validStatuses⟩, t)
  else .ok t

/-- PATCH step for `priority` (`if (priority)` — truthy). -/
def patchPriority (b : TaskBody) (t : Task) : Except (Err × Task) Task :=
  if truthy b.priority then
    if validPriorities.contains (jsToLower (b.priority.getD "")) then
      .ok { t with priority := jsToLower (b.priority.getD "") }
    else
      .error (⟨400, "Invalid priority. Must be one of: " ++
        String.intercalate ", " validPriorities⟩, t)
  else .ok t

/-- PATCH step for `dueDate` (`if (dueDate !== undefined)`, with `null` and
`""` clearing the date). -/
def patchDueDate (b : TaskBody) (t : Task) : Except (Err × Task) Task :=
  match b.dueDate with
  | .undef => .ok t
  | .null => .ok { t with dueDate := none }
  | .str s =>
      if s == "" then .ok { t with dueDate := none }
      else if dateRegexTest s then .ok { t with dueDate := some s }
      else .error (⟨400, "Invalid date format. Use YYYY-MM-DD"⟩, t)

/-- The body of the PATCH handler once the task is found: the five field
steps in source order, then the `updatedAt` refresh (reached only when no
step errored). -/
def patchFields (b : TaskBody) (t : Task) (now : String) :
    Except Err Task × Task :=
  match (patchTitle b t).bind (patchDescription b) |>.bind (patchStatus b)
      |>.bind (patchPriority b) |>.bind (patchDueDate b) with
  | .error (e, tPart) => (.error e, tPart)
  | .ok t' => (.ok { t' with updatedAt := now }, { t' with updatedAt := now })

/-- `PATCH /api/tasks/:id`: `isNaN` guard, lookup, at-least-one-field check
(truthiness for the string fields, `!== undefined` for `dueDate`), then the
field steps; the store receives whatever state the task reached. -/
def tasksPatch (tasks : List Task) (idOpt : Option Int) (b : TaskBody)
    (now : String) : Except Err Task × List Task :=
  match idOpt with
  | none => (.error ⟨400, "Invalid task ID"⟩, tasks)
  | some id =>
      match tasks.find? (fun t => t.id == id) with
      | none => (.error ⟨404, "Task with ID " ++ toString id ++ " not found"⟩, tasks)
      | some t =>
          if !truthy b.title && !truthy b.description && !truthy b.status &&
              !truthy b.priority && b.dueDate == .undef then
            (.error ⟨400, "At least one field is required for update"⟩, tasks)
          else
            let (res, t') := patchFields b t now
            (res, replaceFirst (fun v => v.id == id) t' tasks)

/-- `DELETE /api/tasks/:id`: `isNaN` guard, lookup, then `splice`. -/
def tasksDelete (tasks : List Task) (idOpt : Option Int) :
    Except Err Task × List Task :=
  match idOpt with
  | none => (.error ⟨400, "Invalid task ID"⟩, tasks)
  | some id =>
      match tasks.find? (fun t => t.id == id) with
      | none => (.error ⟨404, "Task with ID " ++ toString id ++ " not found"⟩, tasks)
      | some t => (.ok t, tasks.eraseP (fun v => v.id == id))

/-- The seeded demo `tasks` array (timestamps made concrete). -/
def demoTasks : List Task :=
  [⟨1, "Complete project documentation",
    "Write comprehensive documentation for the Node.js API project",
    "pending", "high", some "2024-12-31", "C1", "U1"⟩,
   ⟨2, "Review code changes", "Review and merge pull request #42",
    "in-progress", "medium", some "2024-12-20", "C2", "U2"⟩,
   ⟨3, "Update dependencies", "Update npm packages to latest versions",
    "completed", "low", some "2024-12-15", "C3", "U3"⟩]

/-- A concrete `tasks` state whose timestamps are genuine `toISOString`
outputs (and whose dueDates include a pre-1970 date), used to exercise the
sorting theorem at a state where every date field parses. -/
def demoTasksIso : List Task :=
  [⟨1, "Write report", "", "pending", "high", some "2024-12-31",
    "2024-12-01T10:00:00.000Z", "2024-12-01T10:00:00.000Z"⟩,
   ⟨2, "Review changes", "", "in-progress", "medium", some "2024-12-20",
    "2024-12-02T09:30:00.000Z", "2024-12-02T09:30:00.000Z"⟩,
   ⟨3, "Archive records", "", "completed", "low", some "1969-12-31",
    "2024-12-03T08:15:00.000Z", "2024-12-03T08:15:00.000Z"⟩]

/-! ## General lemmas about the store primitives -/

theorem le_listMax {l : List Int} : ∀ x ∈ l, x ≤ listMax l := by
  induction l with
  | nil => intro x hx; cases hx
  | cons a t ih =>
    intro x hx
    cases t with
    | nil =>
      rcases List.mem_singleton.mp hx with rfl
      exact le_refl _
    | cons b m =>
      rcases List.mem_cons.mp hx with rfl | hx
      · exact le_max_left _ _
      · exact le_trans (ih x hx) (le_max_right _ _)

theorem listMax_mem : ∀ {l : List Int}, l ≠ [] → listMax l ∈ l := by
  intro l
  induction l with
  | nil => intro h; exact absurd rfl h
  | cons a t ih =>
    intro _
    cases t with
    | nil => exact List.mem_singleton.mpr rfl
    | cons b m =>
      show max a (listMax (b :: m)) ∈ a :: b :: m
      rcases max_choice a (listMax (b :: m)) with h | h
      · rw [h]; exact List.mem_cons_self _ _
      · rw [h]; exact List.mem_cons_of_mem _ (ih (by simp))

theorem nextId_map_spec {α : Type} (f : α → Int) (l : List α) :
    (l = [] ∧ nextId (l.map f) = 1) ∨
      ∃ v, v ∈ l ∧ nextId (l.map f) = f v + 1 ∧ ∀ w, w ∈ l → f w ≤ f v := by
  cases l with
  | nil => exact Or.inl ⟨rfl, rfl⟩
  | cons a t =>
    right
    have hne : (a :: t).map f ≠ [] := by simp
    have hmem : listMax ((a :: t).map f) ∈ (a :: t).map f := listMax_mem hne
    obtain ⟨v, hv, hEq⟩ := List.mem_map.mp hmem
    refine ⟨v, hv, ?_, ?_⟩
    · show nextId ((a :: t).map f) = f v + 1
      unfold nextId
      rw [if_neg (by simp), hEq]
    · intro w hw
      rw [hEq]
      exact le_listMax (f w) (List.mem_map_of_mem f hw)

theorem nextId_map_gt {α : Type} (f : α → Int) (l : List α) :
    ∀ w ∈ l, f w < nextId (l.map f) := by
  intro w hw
  unfold nextId
  rw [if_neg (by simp [List.isEmpty_iff]; intro h; rw [h] at hw; cases hw)]
  exact Int.lt_add_one_of_le (le_listMax (f w) (List.mem_map_of_mem f hw))

theorem usersCreate_ok_id {users : List User} {b : UserBody} {now : String}
    {u : User} {s : List User}
    (h : usersCreate users b now = (Except.ok u, s)) :
    u.id = nextId (users.map (·.id)) := by
  unfold usersCreate at h
  repeat' first | split at h | simp only [] at h
  all_goals simp_all
  all_goals (obtain ⟨h1, h2⟩ := h; rw [← h1])

theorem productsCreate_ok_id {products : List Product} {b : ProductBody}
    {now : String} {p : Product} {s : List Product}
    (h : productsCreate products b now = (Except.ok p, s)) :
    p.id = nextId (products.map (·.id)) := by
  unfold productsCreate at h
  repeat' first | split at h | simp only [] at h
  all_goals simp_all
  all_goals (obtain ⟨h1, h2⟩ := h; rw [← h1])

theorem tasksCreate_ok_id {tasks : List Task} {b : TaskBody} {now : String}
    {t : Task} {s : List Task}
    (h : tasksCreate tasks b now = (Except.ok t, s)) :
    t.id = nextId (tasks.map (·.id)) := by
  unfold tasksCreate at h
  repeat' first | split at h | simp only [] at h
  all_goals simp_all
  all_goals (obtain ⟨h1, h2⟩ := h; rw [← h1])

/-! ## Claims -/

/-- C1: for every valid create — User, Product, or Task — the identifier of the
returned entity equals 1 plus the maximum identifier present in that collection
before the create, or 1 if the collection was empty. -/
theorem create_id_is_max_plus_one :
    (∀ users b now u s, usersCreate users b now = (Except.ok u, s) →
      (users = [] ∧ u.id = 1) ∨
        ∃ v, v ∈ users ∧ u.id = v.id + 1 ∧ ∀ w, w ∈ users → w.id ≤ v.id) ∧
    (∀ products b now p s, productsCreate products b now = (Except.ok p, s) →
      (products = [] ∧ p.id = 1) ∨
        ∃ v, v ∈ products ∧ p.id = v.id + 1 ∧ ∀ w, w ∈ products → w.id ≤ v.id) ∧
    (∀ tasks b now t s, tasksCreate tasks b now = (Except.ok t, s) →
      (tasks = [] ∧ t.id = 1) ∨
        ∃ v, v ∈ tasks ∧ t.id = v.id + 1 ∧ ∀ w, w ∈ tasks → w.id ≤ v.id) := by
  refine ⟨?_, ?_, ?_⟩
  · intro users b now u s h
    have hid := usersCreate_ok_id h
    rcases nextId_map_spec (·.id) users with ⟨h1, h2⟩ | ⟨v, hv, h2, h3⟩
    · exact Or.inl ⟨h1, by rw [hid, h2]⟩
    · exact Or.inr ⟨v, hv, by rw [hid, h2], h3⟩
  · intro products b now p s h
    have hid := productsCreate_ok_id h
    rcases nextId_map_spec (·.id) products with ⟨h1, h2⟩ | ⟨v, hv, h2, h3⟩
    · exact Or.inl ⟨h1, by rw [hid, h2]⟩
    · exact Or.inr ⟨v, hv, by rw [hid, h2], h3⟩
  · intro tasks b now t s h
    have hid := tasksCreate_ok_id h
    rcases nextId_map_spec (·.id) tasks with ⟨h1, h2⟩ | ⟨v, hv, h2, h3⟩
    · exact Or.inl ⟨h1, by rw [hid, h2]⟩
    · exact Or.inr ⟨v, hv, by rw [hid, h2], h3⟩

theorem create_id_is_max_plus_one_witness :
    (demoUsers = [] ∧ (3 : Int) = 1) ∨
      ∃ v, v ∈ demoUsers ∧ (3 : Int) = v.id + 1 ∧
        ∀ w, w ∈ demoUsers → w.id ≤ v.id := by
  have h : usersCreate demoUsers ⟨some "Bob", some "bob@example.org"⟩ "T3" =
      (Except.ok ⟨3, "Bob", "bob@example.org", "T3"⟩,
        demoUsers ++ [⟨3, "Bob", "bob@example.org", "T3"⟩]) := by decide
  exact create_id_is_max_plus_one.1 demoUsers _ _ _ _ h

/-- C2 (counterexample): in the seeded `users` collection, deleting the user
holding the maximum identifier 2 and then creating a new user reassigns the
deleted identifier 2 — identifiers are reused after such a deletion. -/
theorem id_reused_after_delete_cex :
    (usersDelete demoUsers (some 2)).1 =
      .ok ⟨2, "Jane Smith", "jane@example.com", "T2"⟩ ∧
    (usersDelete demoUsers (some 2)).2 =
      [⟨1, "John Doe", "john@example.com", "T1"⟩] ∧
    (usersCreate [⟨1, "John Doe", "john@example.com", "T1"⟩]
        ⟨some "Bob", some "bob@example.org"⟩ "T3").1 =
      .ok ⟨2, "Bob", "bob@example.org", "T3"⟩ := by decide

/-- C2 (amended): a create assigns an identifier strictly greater than every
identifier present at create time, so a deleted identifier is never reassigned
as long as some remaining entity's identifier is at least it; the exception is
a deleted identifier exceeding every remaining one — in particular the maximum
— which a subsequent create does reuse (see the counterexample). -/
theorem deleted_id_below_max_not_reused :
    (∀ users b now u s d, usersCreate users b now = (Except.ok u, s) →
      (∃ v, v ∈ users ∧ d ≤ v.id) → u.id ≠ d) ∧
    (∀ products b now p s d, productsCreate products b now = (Except.ok p, s) →
      (∃ v, v ∈ products ∧ d ≤ v.id) → p.id ≠ d) ∧
    (∀ tasks b now t s d, tasksCreate tasks b now = (Except.ok t, s) →
      (∃ v, v ∈ tasks ∧ d ≤ v.id) → t.id ≠ d) := by
  refine ⟨?_, ?_, ?_⟩
  · rintro users b now u s d h ⟨v, hv, hd⟩
    have hid := usersCreate_ok_id h
    have hlt := nextId_map_gt (·.id) users v hv
    simp only at hlt
    omega
  · rintro products b now p s d h ⟨v, hv, hd⟩
    have hid := productsCreate_ok_id h
    have hlt := nextId_map_gt (·.id) products v hv
    simp only at hlt
    omega
  · rintro tasks b now t s d h ⟨v, hv, hd⟩
    have hid := tasksCreate_ok_id h
    have hlt := nextId_map_gt (·.id) tasks v hv
    simp only at hlt
    omega

theorem deleted_id_below_max_not_reused_witness :
    ((3 : Int) ≠ 1) := by
  have h : usersCreate demoUsers ⟨some "Bob", some "bob@example.org"⟩ "T3" =
      (Except.ok ⟨3, "Bob", "bob@example.org", "T3"⟩,
        demoUsers ++ [⟨3, "Bob", "bob@example.org", "T3"⟩]) := by decide
  exact deleted_id_below_max_not_reused.1 demoUsers _ _ _ _ 1 h
    ⟨⟨1, "John Doe", "john@example.com", "T1"⟩, by decide, by decide⟩

/-- C8: a get-by-id whose path id does not parse to an integer yields 400 from
the Task handler, while the User and Product handlers have no parse check and
yield a 404 lookup miss (the NaN id matches nothing). -/
theorem get_by_id_unparsable :
    (∀ tasks : List Task, tasksGetById tasks none = .error ⟨400, "Invalid task ID"⟩) ∧
    (∀ users : List User, usersGetById users none =
      .error ⟨404, "User with ID NaN not found"⟩) ∧
    (∀ products : List Product, productsGetById products none =
      .error ⟨404, "Product with ID NaN not found"⟩) := by
  refine ⟨fun tasks => rfl, fun users => ?_, fun products => ?_⟩
  · have hnone : users.find? (fun u => (none : Option Int) == some u.id) = none :=
      List.find?_eq_none.mpr (fun x _ => by simp)
    unfold usersGetById
    rw [hnone]
    rfl
  · have hnone : products.find? (fun p => (none : Option Int) == some p.id) = none :=
      List.find?_eq_none.mpr (fun x _ => by simp)
    unfold productsGetById
    rw [hnone]
    rfl

/-- C7: a product list request with numeric minPrice and maxPrice returns
exactly the subsequence of products whose price lies in the closed interval
(both bounds inclusive), in stored order; the handler reads the collection
into a copy and never writes it back, so the store is unchanged. -/
theorem products_price_range_filter (products : List Product) (m M : Rat) :
    productsList products ⟨none, some (.num m), some (.num M)⟩ =
      products.filter (fun p => decide (m ≤ p.price ∧ p.price ≤ M)) := by
  have h1 : productsList products ⟨none, some (.num m), some (.num M)⟩ =
      (products.filter (fun p => JNum.geJ p.price (.num m))).filter
        (fun p => JNum.leJ p.price (.num M)) := rfl
  rw [h1, List.filter_filter]
  refine List.filter_congr fun p _ => ?_
  simp [JNum.geJ, JNum.leJ, Bool.decide_and, Bool.and_comm]

/-- C4: the claim that every erroring request leaves the collection unchanged
fails on the Task PATCH handler — with a valid title and an invalid status the
handler reports 400 yet has already stored the new title.  This theorem
evaluates the handler at that failing input: the response is the 400 error and
the stored task 1 carries the new title with everything else (updatedAt
included) unchanged. -/
theorem tasks_patch_mutates_before_validation :
    (tasksPatch demoTasks (some 1)
        ⟨some "New title", none, some "bogus", none, .undef⟩ "U9").1 =
      .error ⟨400, "Invalid status. Must be one of: pending, in-progress, completed"⟩ ∧
    (tasksPatch demoTasks (some 1)
        ⟨some "New title", none, some "bogus", none, .undef⟩ "U9").2 =
      [⟨1, "New title",
        "Write comprehensive documentation for the Node.js API project",
        "pending", "high", some "2024-12-31", "C1", "U1"⟩,
       ⟨2, "Review code changes", "Review and merge pull request #42",
        "in-progress", "medium", some "2024-12-20", "C2", "U2"⟩,
       ⟨3, "Update dependencies", "Update npm packages to latest versions",
        "completed", "low", some "2024-12-15", "C3", "U3"⟩] := by decide

/-- C5 (counterexample): a User replace request that provides a name but omits
the email is accepted — it succeeds and modifies the user — rather than being
rejected for a missing mandatory field. -/
theorem users_put_missing_field_cex :
    (usersUpdate demoUsers (some 1) ⟨some "Johnny", none⟩).1 =
      .ok ⟨1, "Johnny", "john@example.com", "T1"⟩ ∧
    (usersUpdate demoUsers (some 1) ⟨some "Johnny", none⟩).2 =
      [⟨1, "Johnny", "john@example.com", "T1"⟩,
       ⟨2, "Jane Smith", "jane@example.com", "T2"⟩] := by decide

/-- C5 (amended): PUT on an existing user has partial-update semantics — it
requires at least one of name/email: omitting both yields 400 with the store
unchanged, while providing only a name succeeds, applies the name and keeps
the prior email. -/
theorem users_put_at_least_one_field :
    ∀ users idOpt b u0,
      users.find? (fun v => idOpt == some v.id) = some u0 →
      ((¬ truthy b.name = true ∧ ¬ truthy b.email = true) →
        usersUpdate users idOpt b =
          (.error ⟨400, "At least one field (name or email) is required for update"⟩,
            users)) ∧
      ((truthy b.name = true ∧ b.email = none) →
        (usersUpdate users idOpt b).1 = .ok { u0 with name := b.name.getD "" }) := by
  intro users idOpt b u0 hfind
  constructor
  · rintro ⟨hn, he⟩
    unfold usersUpdate
    simp only [hfind]
    rw [if_pos (by simp [hn, he])]
  · rintro ⟨hn, he⟩
    unfold usersUpdate
    simp only [hfind]
    rw [if_neg (by rw [he]; simp [hn])]
    rw [he]
    rw [if_neg (by simp [truthy])]
    rw [if_neg (by simp [truthy])]
    rw [if_pos hn, if_neg (by simp [truthy])]

theorem users_put_at_least_one_field_witness :
    (usersUpdate demoUsers (some 2) ⟨none, none⟩ =
      (.error ⟨400, "At least one field (name or email) is required for update"⟩,
        demoUsers)) ∧
    (usersUpdate demoUsers (some 2) ⟨some "Janet", none⟩).1 =
      .ok ⟨2, "Janet", "jane@example.com", "T2"⟩ := by
  constructor
  · exact (users_put_at_least_one_field demoUsers (some 2) ⟨none, none⟩
      ⟨2, "Jane Smith", "jane@example.com", "T2"⟩ (by decide)).1 (by decide)
  · exact (users_put_at_least_one_field demoUsers (some 2) ⟨some "Janet", none⟩
      ⟨2, "Jane Smith", "jane@example.com", "T2"⟩ (by decide)).2 (by decide)

/-- C3: a user create or replace whose email equals the email of a different
existing user (with an otherwise well-formed request: truthy name on create,
format-valid email) yields the 409 Conflict error and leaves the users
collection exactly as it was. -/
theorem user_email_conflict :
    (∀ users b now email, b.email = some email → truthy b.name = true →
      emailRegexTest email = true →
      (∃ v, v ∈ users ∧ v.email = email) →
      usersCreate users b now =
        (.error ⟨409, "User with this email already exists"⟩, users)) ∧
    (∀ users i b u0 email,
      users.find? (fun v => (some i : Option Int) == some v.id) = some u0 →
      b.email = some email → emailRegexTest email = true →
      (∃ v, v ∈ users ∧ v.email = email ∧ v.id ≠ i) →
      usersUpdate users (some i) b =
        (.error ⟨409, "User with this email already exists"⟩, users)) := by
  constructor
  · rintro users b now email hbe hbn hfmt ⟨v, hv, hve⟩
    have hne : ¬ email = "" := by
      intro h; rw [h] at hfmt; exact absurd hfmt (by decide)
    have htr : truthy (some email) = true := by simp [truthy, hne]
    have hfind : (users.find? (fun u => u.email == email)).isSome :=
      List.find?_isSome.mpr ⟨v, hv, by simp [hve]⟩
    obtain ⟨w, hw⟩ := Option.isSome_iff_exists.mp hfind
    unfold usersCreate
    rw [hbe]
    rw [if_neg (by simp [hbn, htr])]
    simp only [Option.getD_some]
    rw [if_neg (by simp [hfmt])]
    simp only [hw]
  · rintro users i b u0 email hfind hbe hfmt ⟨v, hv, hve, hvi⟩
    have hne : ¬ email = "" := by
      intro h; rw [h] at hfmt; exact absurd hfmt (by decide)
    have htr : truthy (some email) = true := by simp [truthy, hne]
    have hdup : (users.find? (fun w =>
        w.email == email && !((some i : Option Int) == some w.id))).isSome :=
      List.find?_isSome.mpr ⟨v, hv, by
        simp [hve, beq_iff_eq]
        omega⟩
    obtain ⟨w, hw⟩ := Option.isSome_iff_exists.mp hdup
    unfold usersUpdate
    simp only [hfind]
    rw [hbe]
    rw [if_neg (by simp [htr])]
    simp only [Option.getD_some]
    rw [if_neg (by simp [htr, hfmt])]
    rw [if_pos (by rw [hw]; simp [htr])]

theorem user_email_conflict_witness :
    usersCreate demoUsers ⟨some "Impostor", some "john@example.com"⟩ "T9" =
      (.error ⟨409, "User with this email already exists"⟩, demoUsers) := by
  exact user_email_conflict.1 demoUsers ⟨some "Impostor", some "john@example.com"⟩
    "T9" "john@example.com" rfl (by decide) (by decide)
    ⟨⟨1, "John Doe", "john@example.com", "T1"⟩, by decide, rfl⟩

/-- C10: in the User and Product replace handlers a provided falsy field is
silently skipped — an empty string for name, description or category leaves
the stored value in place while the request still succeeds — whereas price
and stock are applied whenever they are not undefined, so 0 is a valid
update value for them. -/
theorem put_falsy_fields_skipped :
    (∀ products i p0,
      products.find? (fun v => (some i : Option Int) == some v.id) = some p0 →
      productsUpdate products (some i) ⟨some "", some "", some 0, some "", some 0⟩ =
        (.ok { p0 with price := 0, stock := 0 },
          replaceFirst (fun v => (some i : Option Int) == some v.id)
            { p0 with price := 0, stock := 0 } products)) ∧
    (∀ users i u0 e,
      users.find? (fun v => (some i : Option Int) == some v.id) = some u0 →
      emailRegexTest e = true →
      users.find? (fun v => v.email == e && !((some i : Option Int) == some v.id)) = none →
      (usersUpdate users (some i) ⟨some "", some e⟩).1 = .ok { u0 with email := e }) := by
  constructor
  · intro products i p0 hfind
    unfold productsUpdate
    simp only [hfind]
    rfl
  · intro users i u0 e hfind hfmt hdup
    have hne : ¬ e = "" := by
      intro h; rw [h] at hfmt; exact absurd hfmt (by decide)
    have htr : truthy (some e) = true := by simp [truthy, hne]
    unfold usersUpdate
    simp only [hfind]
    rw [if_neg (by simp [htr])]
    simp only [Option.getD_some]
    rw [if_neg (by simp [htr, hfmt])]
    rw [if_neg (by rw [hdup]; simp)]
    rw [if_neg (by decide), if_pos htr]

theorem put_falsy_fields_skipped_witness :
    productsUpdate demoProducts (some 2) ⟨some "", some "", some 0, some "", some 0⟩ =
      (.ok ⟨2, "Coffee Maker", "Programmable coffee maker", 0, "Appliances", 0, "P2"⟩,
        [⟨1, "Laptop", "High-performance laptop", 150, "Electronics", 15, "P1"⟩,
         ⟨2, "Coffee Maker", "Programmable coffee maker", 0, "Appliances", 0, "P2"⟩,
         ⟨3, "Running Shoes", "Comfortable running shoes", 120, "Sports", 25, "P3"⟩]) ∧
    (usersUpdate demoUsers (some 1) ⟨some "", some "john.d@example.com"⟩).1 =
      .ok ⟨1, "John Doe", "john.d@example.com", "T1"⟩ := by
  constructor
  · exact put_falsy_fields_skipped.1 demoProducts 2
      ⟨2, "Coffee Maker", "Programmable coffee maker", 80, "Appliances", 30, "P2"⟩
      (by decide)
  · exact put_falsy_fields_skipped.2 demoUsers 1
      ⟨1, "John Doe", "john@example.com", "T1"⟩ "john.d@example.com"
      (by decide) (by decide) (by decide)

theorem patchTitle_ok {b : TaskBody} {t t' : Task} (h : patchTitle b t = .ok t') :
    t'.id = t.id ∧ t'.createdAt = t.createdAt := by
  unfold patchTitle at h
  repeat' split at h
  all_goals first
    | (injection h; done)
    | (injection h with h; exact h ▸ ⟨rfl, rfl⟩)

theorem patchDescription_ok {b : TaskBody} {t t' : Task}
    (h : patchDescription b t = .ok t') :
    t'.id = t.id ∧ t'.createdAt = t.createdAt := by
  unfold patchDescription at h
  repeat' split at h
  all_goals first
    | (injection h; done)
    | (injection h with h; exact h ▸ ⟨rfl, rfl⟩)

theorem patchStatus_ok {b : TaskBody} {t t' : Task} (h : patchStatus b t = .ok t') :
    t'.id = t.id ∧ t'.createdAt = t.createdAt := by
  unfold patchStatus at h
  repeat' split at h
  all_goals first
    | (injection h; done)
    | (injection h with h; exact h ▸ ⟨rfl, rfl⟩)

theorem patchPriority_ok {b : TaskBody} {t t' : Task}
    (h : patchPriority b t = .ok t') :
    t'.id = t.id ∧ t'.createdAt = t.createdAt := by
  unfold patchPriority at h
  repeat' split at h
  all_goals first
    | (injection h; done)
    | (injection h with h; exact h ▸ ⟨rfl, rfl⟩)

theorem patchDueDate_ok {b : TaskBody} {t t' : Task}
    (h : patchDueDate b t = .ok t') :
    t'.id = t.id ∧ t'.createdAt = t.createdAt := by
  unfold patchDueDate at h
  repeat' split at h
  all_goals first
    | (injection h; done)
    | (injection h with h; exact h ▸ ⟨rfl, rfl⟩)

theorem patchChain_ok {b : TaskBody} {t t0 : Task}
    (h : ((((patchTitle b t).bind (patchDescription b)).bind (patchStatus b)).bind
      (patchPriority b)).bind (patchDueDate b) = .ok t0) :
    t0.id = t.id ∧ t0.createdAt = t.createdAt := by
  cases h1 : patchTitle b t with
  | error e => rw [h1] at h; simp [Except.bind] at h
  | ok t1 =>
    rw [h1] at h; simp only [Except.bind] at h
    cases h2 : patchDescription b t1 with
    | error e => rw [h2] at h; simp [Except.bind] at h
    | ok t2 =>
      rw [h2] at h; simp only [Except.bind] at h
      cases h3 : patchStatus b t2 with
      | error e => rw [h3] at h; simp [Except.bind] at h
      | ok t3 =>
        rw [h3] at h; simp only [Except.bind] at h
        cases h4 : patchPriority b t3 with
        | error e => rw [h4] at h; simp [Except.bind] at h
        | ok t4 =>
          rw [h4] at h; simp only [Except.bind] at h
          obtain ⟨i5, c5⟩ := patchDueDate_ok h
          obtain ⟨i4, c4⟩ := patchPriority_ok h4
          obtain ⟨i3, c3⟩ := patchStatus_ok h3
          obtain ⟨i2, c2⟩ := patchDescription_ok h2
          obtain ⟨i1, c1⟩ := patchTitle_ok h1
          exact ⟨by rw [i5, i4, i3, i2, i1], by rw [c5, c4, c3, c2, c1]⟩

theorem patchFields_ok {b : TaskBody} {t : Task} {now : String} {t2 t3 : Task}
    (h : patchFields b t now = (.ok t2, t3)) :
    t2.id = t.id ∧ t2.createdAt = t.createdAt ∧ t2.updatedAt = now ∧ t3 = t2 := by
  unfold patchFields at h
  split at h
  · simp at h
  · rename_i t0 heq
    injection h with h1 h2
    injection h1 with h1
    obtain ⟨hid, hca⟩ := patchChain_ok heq
    exact ⟨by rw [← h1, hid], by rw [← h1, hca], by rw [← h1],
      by rw [← h2]; exact h1⟩

/-- C9: a successful replace (PUT) or partial update (PATCH) targets the
entity whose identifier equals the parsed path id, the returned entity keeps
that identifier and the targeted entity's creation timestamp, for Tasks the
last-update timestamp is set to the current time, and the collection after
the request is exactly the old collection with that one entity replaced by
the returned one. -/
theorem update_preserves_id_and_createdAt :
    (∀ tasks idOpt b now t' s, tasksPut tasks idOpt b now = (Except.ok t', s) →
      ∃ id t, idOpt = some id ∧ tasks.find? (fun v => v.id == id) = some t ∧
        t.id = id ∧ t'.id = t.id ∧ t'.createdAt = t.createdAt ∧
        t'.updatedAt = now ∧
        s = replaceFirst (fun v => v.id == id) t' tasks) ∧
    (∀ tasks idOpt b now t' s, tasksPatch tasks idOpt b now = (Except.ok t', s) →
      ∃ id t, idOpt = some id ∧ tasks.find? (fun v => v.id == id) = some t ∧
        t.id = id ∧ t'.id = t.id ∧ t'.createdAt = t.createdAt ∧
        t'.updatedAt = now ∧
        s = replaceFirst (fun v => v.id == id) t' tasks) ∧
    (∀ users idOpt b u' s, usersUpdate users idOpt b = (Except.ok u', s) →
      ∃ u, users.find? (fun v => idOpt == some v.id) = some u ∧
        idOpt = some u.id ∧ u'.id = u.id ∧ u'.createdAt = u.createdAt ∧
        s = replaceFirst (fun v => idOpt == some v.id) u' users) ∧
    (∀ products idOpt b p' s, productsUpdate products idOpt b = (Except.ok p', s) →
      ∃ p, products.find? (fun v => idOpt == some v.id) = some p ∧
        idOpt = some p.id ∧ p'.id = p.id ∧ p'.createdAt = p.createdAt ∧
        s = replaceFirst (fun v => idOpt == some v.id) p' products) := by
  refine ⟨?_, ?_, ?_, ?_⟩
  · intro tasks idOpt b now t' s h
    unfold tasksPut at h
    cases idOpt with
    | none => simp at h
    | some id =>
      cases hf : tasks.find? (fun t => t.id == id) with
      | none => simp only [hf] at h; simp at h
      | some t =>
        simp only [hf] at h
        repeat' first | split at h | simp only [] at h
        all_goals first
          | (simp at h; done)
          | (injection h with h1 h2; injection h1 with h1;
             exact ⟨id, t, rfl, hf, by simpa using List.find?_some hf,
               by rw [← h1], by rw [← h1], by rw [← h1], by rw [← h2, h1]⟩)
  · intro tasks idOpt b now t' s h
    unfold tasksPatch at h
    cases idOpt with
    | none => simp at h
    | some id =>
      cases hf : tasks.find? (fun t => t.id == id) with
      | none => simp only [hf] at h; simp at h
      | some t =>
        simp only [hf] at h
        split at h
        · simp at h
        · rcases hpf : patchFields b t now with ⟨res, t2⟩
          simp only [hpf] at h
          injection h with h1 h2
          subst h1
          obtain ⟨hid, hca, hup, ht3⟩ := patchFields_ok hpf
          exact ⟨id, t, rfl, hf, by simpa using List.find?_some hf,
            hid, hca, hup, by rw [← h2, ht3]⟩
  · intro users idOpt b u' s h
    unfold usersUpdate at h
    cases hf : users.find? (fun v => idOpt == some v.id) with
    | none => simp only [hf] at h; simp at h
    | some u =>
      simp only [hf] at h
      repeat' first | split at h | simp only [] at h
      all_goals first
        | (simp at h; done)
        | (injection h with h1 h2; injection h1 with h1;
           exact ⟨u, rfl, by simpa using List.find?_some hf,
             by rw [← h1], by rw [← h1], by rw [← h2, h1]⟩)
  · intro products idOpt b p' s h
    unfold productsUpdate at h
    cases hf : products.find? (fun v => idOpt == some v.id) with
    | none => simp only [hf] at h; simp at h
    | some p =>
      simp only [hf] at h
      repeat' first | split at h | simp only [] at h
      all_goals first
        | (simp at h; done)
        | (injection h with h1 h2; injection h1 with h1;
           exact ⟨p, rfl, by simpa using List.find?_some hf,
             by rw [← h1], by rw [← h1], by rw [← h2, h1]⟩)

theorem update_preserves_id_and_createdAt_witness :
    ∃ id t, (some 2 : Option Int) = some id ∧
      demoTasks.find? (fun v => v.id == id) = some t ∧ t.id = id ∧
      (2 : Int) = t.id ∧ ("C2" : String) = t.createdAt ∧
      ("U9" : String) = "U9" ∧
      [⟨1, "Complete project documentation",
        "Write comprehensive documentation for the Node.js API project",
        "pending", "high", some "2024-12-31", "C1", "U1"⟩,
       ⟨2, "Ship release", "", "completed", "high", none, "C2", "U9"⟩,
       ⟨3, "Update dependencies", "Update npm packages to latest versions",
        "completed", "low", some "2024-12-15", "C3", "U3"⟩] =
        replaceFirst (fun v => v.id == id)
          ⟨2, "Ship release", "", "completed", "high", none, "C2", "U9"⟩
          demoTasks := by
  have h : tasksPut demoTasks (some 2)
      ⟨some "Ship release", none, some "completed", some "high", .undef⟩ "U9" =
      (Except.ok ⟨2, "Ship release", "", "completed", "high", none, "C2", "U9"⟩,
        [⟨1, "Complete project documentation",
          "Write comprehensive documentation for the Node.js API project",
          "pending", "high", some "2024-12-31", "C1", "U1"⟩,
         ⟨2, "Ship release", "", "completed", "high", none, "C2", "U9"⟩,
         ⟨3, "Update dependencies", "Update npm packages to latest versions",
          "completed", "low", some "2024-12-15", "C3", "U3"⟩]) := by decide
  exact update_preserves_id_and_createdAt.1 demoTasks _ _ _ _ _ h

theorem orderedInsert_congr {α : Type} {r s : α → α → Prop}
    [DecidableRel r] [DecidableRel s] (a : α) :
    ∀ l : List α, (∀ x, x ∈ a :: l → ∀ y, y ∈ a :: l → (r x y ↔ s x y)) →
      List.orderedInsert r a l = List.orderedInsert s a l := by
  intro l
  induction l with
  | nil => intro _; rfl
  | cons b t ih =>
    intro h
    show (if r a b then a :: b :: t else b :: List.orderedInsert r a t) =
      (if s a b then a :: b :: t else b :: List.orderedInsert s a t)
    by_cases hrb : r a b
    · rw [if_pos hrb, if_pos ((h a (by simp) b (by simp)).mp hrb)]
    · rw [if_neg hrb, if_neg (fun hs => hrb ((h a (by simp) b (by simp)).mpr hs))]
      have hsub : ∀ x, x ∈ a :: t → x ∈ a :: b :: t := by
        intro x hx
        rcases List.mem_cons.mp hx with rfl | hx
        · exact List.mem_cons_self _ _
        · exact List.mem_cons_of_mem _ (List.mem_cons_of_mem _ hx)
      rw [ih (fun x hx y hy => h x (hsub x hx) y (hsub y hy))]

theorem insertionSort_congr {α : Type} {r s : α → α → Prop}
    [DecidableRel r] [DecidableRel s] :
    ∀ l : List α, (∀ x, x ∈ l → ∀ y, y ∈ l → (r x y ↔ s x y)) →
      l.insertionSort r = l.insertionSort s := by
  intro l
  induction l with
  | nil => intro _; rfl
  | cons a t ih =>
    intro h
    show List.orderedInsert r a (t.insertionSort r) =
      List.orderedInsert s a (t.insertionSort s)
    rw [ih (fun x hx y hy =>
      h x (List.mem_cons_of_mem _ hx) y (List.mem_cons_of_mem _ hy))]
    apply orderedInsert_congr
    intro x hx y hy
    have hmem : ∀ z, z ∈ a :: t.insertionSort s → z ∈ a :: t := by
      intro z hz
      rcases List.mem_cons.mp hz with rfl | hz
      · exact List.mem_cons_self _ _
      · exact List.mem_cons_of_mem _ ((List.mem_insertionSort _).mp hz)
    exact h x (hmem x hx) y (hmem y hy)

/-- C6: sorting tasks with sortBy=priority ascending orders the result by the
fixed rank low=1, medium=2, high=3 regardless of insertion order, with ties
keeping their prior relative order (the sort is stable); and when every date
field of the store carries a real chronological value (a calendar-valid date
or, for dueDate, null — on a store holding a regex-valid but calendar-invalid
date the JavaScript comparator returns NaN, the pair counts as equal and
ECMAScript leaves the order implementation-defined, so no chronological claim
exists there), sortBy=dueDate and sortBy=createdAt order the result by the
epoch-milliseconds value of `new Date` on the field — the chronological key,
with null at the epoch — not by string comparison.  The hwf hypothesis
records the store invariant (priorities are enum values) under which the
rank model of the comparator is exact. -/
theorem tasks_sort_semantics (tasks : List Task)
    (hwf : ∀ t ∈ tasks, t.priority = "low" ∨ t.priority = "medium" ∨
      t.priority = "high") :
    List.Perm (tasksList tasks ⟨none, none, some "priority", none⟩) tasks ∧
    (tasksList tasks ⟨none, none, some "priority", none⟩).Pairwise
      (fun a b => priorityOrder a.priority ≤ priorityOrder b.priority) ∧
    (∀ a b, List.Sublist [a, b] tasks →
      priorityOrder a.priority = priorityOrder b.priority →
      List.Sublist [a, b] (tasksList tasks ⟨none, none, some "priority", none⟩)) ∧
    ((∀ t ∈ tasks, (dueDateMs t.dueDate).isSome = true) →
      List.Perm (tasksList tasks ⟨none, none, some "dueDate", none⟩) tasks ∧
      (tasksList tasks ⟨none, none, some "dueDate", none⟩).Pairwise
        (fun a b => (dueDateMs a.dueDate).getD 0 ≤ (dueDateMs b.dueDate).getD 0)) ∧
    ((∀ t ∈ tasks, (jsDateMs t.createdAt).isSome = true) →
      List.Perm (tasksList tasks ⟨none, none, some "createdAt", none⟩) tasks ∧
      (tasksList tasks ⟨none, none, some "createdAt", none⟩).Pairwise
        (fun a b => (jsDateMs a.createdAt).getD 0 ≤ (jsDateMs b.createdAt).getD 0)) := by
  have e1 : tasksList tasks ⟨none, none, some "priority", none⟩ =
      tasks.insertionSort (fun a b => sortComparator "priority" 1 a b ≤ 0) := rfl
  have e2 : tasksList tasks ⟨none, none, some "dueDate", none⟩ =
      tasks.insertionSort (fun a b => sortComparator "dueDate" 1 a b ≤ 0) := rfl
  have e3 : tasksList tasks ⟨none, none, some "createdAt", none⟩ =
      tasks.insertionSort (fun a b => sortComparator "createdAt" 1 a b ≤ 0) := rfl
  have c1 : ∀ a b : Task, sortComparator "priority" 1 a b =
      priorityOrder a.priority - priorityOrder b.priority := by
    intro a b
    show (priorityOrder a.priority - priorityOrder b.priority) * 1 = _
    exact mul_one _
  have c2 : ∀ a b : Task, sortComparator "dueDate" 1 a b =
      dateDiff (dueDateMs a.dueDate) (dueDateMs b.dueDate) := by
    intro a b
    show dateDiff (dueDateMs a.dueDate) (dueDateMs b.dueDate) * 1 = _
    exact mul_one _
  have c3 : ∀ a b : Task, sortComparator "createdAt" 1 a b =
      dateDiff (jsDateMs a.createdAt) (jsDateMs b.createdAt) := by
    intro a b
    show dateDiff (jsDateMs a.createdAt) (jsDateMs b.createdAt) * 1 = _
    exact mul_one _
  haveI : IsTotal Task (fun a b => sortComparator "priority" 1 a b ≤ 0) := by
    constructor; intro a b; simp only [c1]; omega
  haveI : IsTrans Task (fun a b => sortComparator "priority" 1 a b ≤ 0) := by
    constructor; intro a b c hab hbc; simp only [c1] at hab hbc ⊢; omega
  haveI : IsTotal Task
      (fun a b : Task => (dueDateMs a.dueDate).getD 0 ≤ (dueDateMs b.dueDate).getD 0) :=
    ⟨fun a b => le_total _ _⟩
  haveI : IsTrans Task
      (fun a b : Task => (dueDateMs a.dueDate).getD 0 ≤ (dueDateMs b.dueDate).getD 0) :=
    ⟨fun _ _ _ hab hbc => le_trans hab hbc⟩
  haveI : IsTotal Task
      (fun a b : Task => (jsDateMs a.createdAt).getD 0 ≤ (jsDateMs b.createdAt).getD 0) :=
    ⟨fun a b => le_total _ _⟩
  haveI : IsTrans Task
      (fun a b : Task => (jsDateMs a.createdAt).getD 0 ≤ (jsDateMs b.createdAt).getD 0) :=
    ⟨fun _ _ _ hab hbc => le_trans hab hbc⟩
  refine ⟨?_, ?_, ?_, ?_, ?_⟩
  · rw [e1]; exact List.perm_insertionSort _ _
  · rw [e1]
    exact List.Pairwise.imp
      (fun {a b} hab => by simp only [c1] at hab; omega)
      (List.sorted_insertionSort _ tasks)
  · intro a b hsub heq
    rw [e1]
    refine List.pair_sublist_insertionSort ?_ hsub
    show sortComparator "priority" 1 a b ≤ 0
    rw [c1]; omega
  · intro hdd
    have hcg : tasks.insertionSort (fun a b => sortComparator "dueDate" 1 a b ≤ 0) =
        tasks.insertionSort (fun a b : Task =>
          (dueDateMs a.dueDate).getD 0 ≤ (dueDateMs b.dueDate).getD 0) := by
      apply insertionSort_congr
      intro a ha b hb
      obtain ⟨x, hx⟩ := Option.isSome_iff_exists.mp (hdd a ha)
      obtain ⟨y, hy⟩ := Option.isSome_iff_exists.mp (hdd b hb)
      rw [c2 a b, hx, hy]
      simp only [dateDiff, Option.getD_some]
      omega
    constructor
    · rw [e2, hcg]; exact List.perm_insertionSort _ _
    · rw [e2, hcg]; exact List.sorted_insertionSort _ tasks
  · intro hca
    have hcg : tasks.insertionSort (fun a b => sortComparator "createdAt" 1 a b ≤ 0) =
        tasks.insertionSort (fun a b : Task =>
          (jsDateMs a.createdAt).getD 0 ≤ (jsDateMs b.createdAt).getD 0) := by
      apply insertionSort_congr
      intro a ha b hb
      obtain ⟨x, hx⟩ := Option.isSome_iff_exists.mp (hca a ha)
      obtain ⟨y, hy⟩ := Option.isSome_iff_exists.mp (hca b hb)
      rw [c3 a b, hx, hy]
      simp only [dateDiff, Option.getD_some]
      omega
    constructor
    · rw [e3, hcg]; exact List.perm_insertionSort _ _
    · rw [e3, hcg]; exact List.sorted_insertionSort _ tasks

theorem tasks_sort_semantics_witness :
    List.Perm (tasksList demoTasksIso ⟨none, none, some "dueDate", none⟩)
      demoTasksIso ∧
    (tasksList demoTasksIso ⟨none, none, some "dueDate", none⟩).Pairwise
      (fun a b => (dueDateMs a.dueDate).getD 0 ≤ (dueDateMs b.dueDate).getD 0) :=
  (tasks_sort_semantics demoTasksIso (by decide)).2.2.2.1 (by decide)

end NodeDemo
